import Mathlib

/-!
Shallow embedding of the drupalValidator client-side validation engine
(`src/drupalValidator.js`, `src/drupalValidatorBasics.js`,
`src/exampleValidator.js`).

Layer 5 predicates become pure `String → Bool` functions; the layer 3/4
engine (error-state binding, recovery and the scope error tracker) becomes
explicit state passing over an `EngState` record that models the DOM
classes and message nodes the source manipulates, together with a trace of
the abstract commands (set-error / clear-error / scope query) the source
issues.
-/

/-! ## Character classes used by the source regexes -/

/-- `\d` of the source regexes: an ASCII digit. -/
def isDigitChar (c : Char) : Bool := 48 ≤ c.toNat && c.toNat ≤ 57

/-- `[A-Z]` of `containsUppercase`. -/
def isUpperAZ (c : Char) : Bool := 65 ≤ c.toNat && c.toNat ≤ 90

/-- `[a-z]` of `containsLowercase`. -/
def isLowerAZ (c : Char) : Bool := 97 ≤ c.toNat && c.toNat ≤ 122

/-- `[0-9a-zA-Z]` of `containsOnlyAlphaNumeric`. -/
def isAlnumChar (c : Char) : Bool := isDigitChar c || isUpperAZ c || isLowerAZ c

/-! ## Drupal.drupalValidatorBasics: simple string predicates -/

/-- `containsUppercase(value)`: `/[A-Z]+/.test(value)`. -/
def containsUppercase (value : String) : Bool := value.data.any isUpperAZ

/-- `containsLowercase(value)`: `/[a-z]+/.test(value)`. -/
def containsLowercase (value : String) : Bool := value.data.any isLowerAZ

/-- `containsNumber(value)`: `/[0-9]+/.test(value)`. -/
def containsNumber (value : String) : Bool := value.data.any isDigitChar

/-- `containsOnlyAlphaNumeric(value)`: `!/[^0-9a-zA-Z]+/.test(value)`. -/
def containsOnlyAlphaNumeric (value : String) : Bool :=
  !(value.data.any (fun c => !(isAlnumChar c)))

/-- `containsOnlyNumeric(value)`: `!/[^0-9]+/.test(value)`. -/
def containsOnlyNumeric (value : String) : Bool :=
  !(value.data.any (fun c => !(isDigitChar c)))

/-- `containsLowerAndUppercase(value)`. -/
def containsLowerAndUppercase (value : String) : Bool :=
  containsUppercase value && containsLowercase value

/--
`lengthValid(value, min, max, fail_on_blank)`.  `min`/`max` may be
`undefined` in JS, modelled as `none`; a JS comparison against `undefined`
is `false` (NaN semantics), which the final branch reproduces.
-/
def lengthValid (value : String) (min max : Option Nat) (fail_on_blank : Bool) : Bool :=
  if min = none ∧ max = none then true
  else if fail_on_blank = false ∧ value.length = 0 then true
  else if min = none ∧ (match max with | some mx => decide (value.length > mx) | none => false) = true then false
  else if max = none ∧ (match min with | some mn => decide (value.length < mn) | none => false) = true then false
  else if ((match min with | some mn => decide (value.length < mn) | none => false)
        || (match max with | some mx => decide (value.length > mx) | none => false)) = true then false
  else true

/-- `fieldNotEmpty(value)`: `lengthValid(value, 1, 999999, true)`. -/
def fieldNotEmpty (value : String) : Bool :=
  lengthValid value (some 1) (some 999999) true

/-- JS `String.prototype.startsWith`-style check: does the first list start
with the second one? -/
def startsWithChars : List Char → List Char → Bool
  | _, [] => true
  | [], _ :: _ => false
  | c :: cs, d :: ds => c == d && startsWithChars cs ds

/-- JS `haystack.indexOf(needle) !== -1`: the needle occurs somewhere in
the haystack (the empty needle occurs in everything). -/
def occursIn (needle : List Char) : List Char → Bool
  | [] => startsWithChars [] needle
  | c :: cs => startsWithChars (c :: cs) needle || occursIn needle cs

/-- `doesNotContainValue(needle, haystack, error_on_blank)`. -/
def doesNotContainValue (needle haystack : String) (error_on_blank : Bool) : Bool :=
  if needle.length = 0 ∧ error_on_blank = false then true
  else if occursIn needle.data haystack.data = false then true
  else false

/-! ### The anchored group regexes of `ssnValid` / `phoneValid`

`/^\d{a}-?\d{b}-?\d{c}$/` is deterministic: `-?` can greedily consume a
dash exactly when one is present, since a dash can never satisfy `\d`. -/

/-- Consume exactly `n` digits from the front, or fail. -/
def takeDigits : Nat → List Char → Option (List Char)
  | 0, cs => some cs
  | _ + 1, [] => none
  | n + 1, c :: cs => if isDigitChar c then takeDigits n cs else none

/-- Consume one optional leading dash (`-?`). -/
def skipOneDash : List Char → List Char
  | [] => []
  | c :: cs => if c = '-' then cs else c :: cs

/-- Full-string test of `/^\d{a}-?\d{b}-?\d{c}$/`. -/
def groupsRegexTest (a b c : Nat) (value : String) : Bool :=
  match takeDigits a value.data with
  | none => false
  | some r1 =>
    match takeDigits b (skipOneDash r1) with
    | none => false
    | some r2 =>
      match takeDigits c (skipOneDash r2) with
      | none => false
      | some r3 => r3.isEmpty

/-- `socialRegex.test(value)` with `/^\d{3}-?\d{2}-?\d{4}$/`. -/
def ssnRegexTest (value : String) : Bool := groupsRegexTest 3 2 4 value

/-- `numericRegex.test(value)` with `/^\d{3}-?\d{3}-?\d{4}$/`. -/
def phoneRegexTest (value : String) : Bool := groupsRegexTest 3 3 4 value

/-- `ssnValid(value, error_on_blank)`. -/
def ssnValid (value : String) (error_on_blank : Bool) : Bool :=
  if value.length = 0 ∧ error_on_blank = false then true
  else if (value.length ≠ 0 ∧ value.length < 9) ∨ ssnRegexTest value = false then false
  else true

/-- The dash-global replace of the source (`value.replace` with the global
dash regex and the empty string): remove every dash. -/
def stripDashes (value : String) : String :=
  String.mk (value.data.filter (fun c => !(c == '-')))

/--
`phoneValid(value, error_on_blank)`.  `ruleThere` models the source's
final step: strip the dashes, then erase the result when the whole of it
matches `new RegExp("^" + firstChar + "+$")`, and test that the remaining
length is not zero.  The dash-stripped value is erased exactly when it is
a non-empty run of the original first character, so the rule holds iff the
stripped value is non-empty and not all copies of the first character.
-/
def phoneValid (value : String) (error_on_blank : Bool) : Bool :=
  if value.length = 0 ∧ error_on_blank = false then true
  else
    let stripped := stripDashes value
    let ruleOne := phoneRegexTest value
    let ruleTwo := stripped.length == 10
    let ruleThere :=
      !(stripped.data.isEmpty) &&
      !(match value.data.head? with
        | none => false
        | some firstChar => stripped.data.all (fun c => c == firstChar))
    ruleOne && ruleTwo && ruleThere

/-! ### The email regex of `emailValid`

`/[local]+@[a-zA-Z0-9](?:[a-zA-Z0-9-]{0,61}[a-zA-Z0-9])?(?:\.(...))*$/`
is start-unanchored and end-anchored, so `.test` holds iff some suffix of
the value matches the whole pattern. -/

/-- The character class of the local part of the source email regex
(`a-zA-Z0-9.!#$%&'*+/=?^_` plus backquote, braces, bar, tilde, dash —
characters awkward as Lean literals are given by code point). -/
def isEmailLocalChar (c : Char) : Bool :=
  isAlnumChar c ||
  c == '.' || c == '!' || c == '#' || c == '$' || c == '%' || c == '&' ||
  c == '*' || c == '+' || c == '/' || c == '=' || c == '?' || c == '^' ||
  c == '_' || c == '~' || c == '-' || c == '|' ||
  c.toNat = 39 || c.toNat = 96 || c.toNat = 123 || c.toNat = 125

/-- Split a character list on `.` (dots deterministically delimit labels,
since a label never contains a dot). -/
def splitOnDot : List Char → List (List Char)
  | [] => [[]]
  | c :: cs =>
    if c = '.' then [] :: splitOnDot cs
    else
      match splitOnDot cs with
      | [] => [[c]]
      | l :: ls => (c :: l) :: ls

/-- One domain label: `[a-zA-Z0-9](?:[a-zA-Z0-9-]{0,61}[a-zA-Z0-9])?` —
first and last characters alphanumeric, up to 61 inner `[a-zA-Z0-9-]`
characters. -/
def emailLabelOK (l : List Char) : Bool :=
  match l with
  | [] => false
  | c :: rest =>
    isAlnumChar c && l.length ≤ 63 &&
    (match rest.getLast? with
     | none => true
     | some d => isAlnumChar d && rest.dropLast.all (fun e => isAlnumChar e || e == '-'))

/-- The domain part: `label(\.label)*`. -/
def emailDomainOK (after : List Char) : Bool :=
  (splitOnDot after).all emailLabelOK

/-- Match of the whole email pattern at one starting position: a non-empty
run of local characters, a literal `@`, then a valid domain reaching the
end of the string. -/
def matchEmailAt (t : List Char) : Bool :=
  let before := t.takeWhile (fun c => !(c == '@'))
  match t.drop before.length with
  | [] => false
  | c :: after => c == '@' && !before.isEmpty && before.all isEmailLocalChar && emailDomainOK after

/-- `emailRegex.test(value)`: some suffix matches the pattern. -/
def emailRegexTest (value : String) : Bool :=
  (List.tails value.data).any matchEmailAt

/-- `emailValid(value, error_on_blank)`. -/
def emailValid (value : String) (error_on_blank : Bool) : Bool :=
  if value.length = 0 ∧ error_on_blank = false then true
  else emailRegexTest value

/-! ## Drupal.drupalValidator.runValidationRuleset (Rule Evaluator) -/

/-- The JS function returns either a boolean or the assembled result
array, depending on `return_errors`. -/
inductive RunResult where
  | bool (b : Bool)
  | arr (results : List Bool)
deriving DecidableEq

/--
The `for` loop of `runValidationRuleset`, carrying the `error_array` and
`errors` accumulators.  An early `return false` happens when
`halt_on_error === true` and the current result is `false`; the `errors`
flag is raised when not in error-returning mode and a result is `false`.
-/
def runRulesetLoop (return_errors halt_on_error : Bool)
    (error_array : List Bool) (errors : Bool) : List Bool → RunResult
  | [] => if return_errors = true then .arr error_array else .bool (!errors)
  | my_result :: rest =>
    if halt_on_error = true ∧ my_result = false then .bool false
    else
      runRulesetLoop return_errors halt_on_error (error_array ++ [my_result])
        (if return_errors ≠ true ∧ my_result = false then true else errors) rest

/-- `runValidationRuleset(validation_callbacks, return_errors, halt_on_error)`.
Rules are already-computed booleans, as in the source, where each array
entry is the eagerly evaluated predicate result. -/
def runValidationRuleset (validation_callbacks : List Bool)
    (return_errors halt_on_error : Bool) : RunResult :=
  runRulesetLoop return_errors halt_on_error [] false validation_callbacks

/-! ## Layer 4: error-state engine over an explicit DOM-like state

A field identity is opaque and equality-comparable; the state records, per
field, the error class on the input, the error class on its label, the
form-level `form-error-state` class, each field's inline message content,
each field's current value, the form's field inventory, and a trace of the
abstract Error Sink commands issued so far. -/

/-- Opaque field identity. -/
abbrev FieldId := Nat

/-- Abstract Error Sink commands issued by the layer-4 functions. -/
inductive Cmd where
  | setError (field : FieldId) (message : String)
  | clearError (field : FieldId)
  | queryOther (field : FieldId)
deriving DecidableEq

/-- The engine-visible form state. -/
structure EngState where
  scope : List FieldId
  val : FieldId → String
  fieldErr : FieldId → Bool
  labelErr : FieldId → Bool
  formErr : Bool
  msg : FieldId → String
  log : List Cmd

/--
`setErrorState(element, message)`: add the `error` class to the input and
(idempotently) its label, add `form-error-state` to the enclosing form,
and set the inline message node's content to `message` (inserting the node
when absent — either way the content is `message` afterwards).
-/
def setErrorState (element : FieldId) (message : String) (s : EngState) : EngState :=
  { s with
    fieldErr := fun g => if g = element then true else s.fieldErr g,
    labelErr := fun g => if g = element then true else s.labelErr g,
    formErr := true,
    msg := fun g => if g = element then message else s.msg g,
    log := s.log ++ [Cmd.setError element message] }

/--
`otherErrorsExist(element)`: inside the enclosing form, count the inputs
carrying the `error` class that are not the passed element, and report
whether the count is positive.  It only reads state; the unchanged state
is returned to make the read-only access explicit.
-/
def otherErrorsExist (element : FieldId) (s : EngState) : Bool × EngState :=
  let error_elements := s.scope.filter s.fieldErr
  let count := List.countP (fun value => value != element) error_elements
  (decide (0 < count), s)

/--
`recoverErrorState(element)`: remove the `error` class from the element
and its label, consult `otherErrorsExist` and remove the form-level class
when no other field is in error, and blank the inline message (the source's
existence check on the message node is always truthy, so the blanking is
unconditional).
-/
def recoverErrorState (element : FieldId) (s : EngState) : EngState :=
  let s1 : EngState :=
    { s with
      fieldErr := fun g => if g = element then false else s.fieldErr g,
      labelErr := fun g => if g = element then false else s.labelErr g,
      log := s.log ++ [Cmd.clearError element] }
  let q := otherErrorsExist element s1
  let s2 : EngState := { q.2 with log := q.2.log ++ [Cmd.queryOther element] }
  let s3 : EngState := { s2 with formErr := if q.1 = false then false else s2.formErr }
  { s3 with msg := fun g => if g = element then "" else s3.msg g }

/-! ## Layer 3: validation / error-state binding -/

/--
`bindValidationError(field, callback, error_message)`: when the
already-computed callback result is `false`, set the error state and
return `false`; otherwise return `true` (and do nothing else).
-/
def bindValidationError (field : FieldId) (callback : Bool) (error_message : String)
    (s : EngState) : Bool × EngState :=
  if callback = false then (false, setErrorState field error_message s)
  else (true, s)

/-- The `report_error_message` parameter of `bindFieldValidationArray` is
either a string (a single message) or a boolean. -/
inductive ReportArg where
  | str (message : String)
  | bool (b : Bool)

/--
`bindFieldValidationArray(field, validaton_callbacks, report_error_message)`:
normalise `report_error_message` (a string becomes the message with the
flag forced to `false`; any non-`false` non-string becomes `true`), run
the ruleset with `return_errors = false` and `halt_on_error = true`, then:
recover the error state and return `true` when the flag is `false` and the
result is `true`; set the error state when the result is `false` and the
flag is `false`; in every other case, return `false` having done nothing.
-/
def bindFieldValidationArray (field : FieldId) (validaton_callbacks : List Bool)
    (report_error_message : ReportArg) (s : EngState) : Bool × EngState :=
  let error_message : String :=
    match report_error_message with
    | ReportArg.str m => m
    | ReportArg.bool _ => ""
  let rem : Bool :=
    match report_error_message with
    | ReportArg.str _ => false
    | ReportArg.bool b => if b = false then false else true
  let results := runValidationRuleset validaton_callbacks false true
  if rem = false ∧ results = RunResult.bool true then
    (true, recoverErrorState field s)
  else if results = RunResult.bool false ∧ rem = false then
    (false, setErrorState field error_message s)
  else
    (false, s)

/-! ## Layer 3 composite validators referenced by the claims -/

/-- `validateZipField(input_element, error_message, error_on_blank)`:
numeric-only and length-exactly-5 rules, bound as an array with a single
string message. -/
def validateZipField (input_element : FieldId) (error_message : String)
    (error_on_blank : Bool) (s : EngState) : Bool × EngState :=
  let rules : List Bool :=
    [containsOnlyNumeric (s.val input_element),
     lengthValid (s.val input_element) (some 5) (some 5) error_on_blank]
  bindFieldValidationArray input_element rules (ReportArg.str error_message) s

/-- `validatePasswordField(input_element, user_id_element, error_message)`:
length 8–128, lower-and-upper case, digit, and does-not-contain-userId
rules, bound as an array with a single string message. -/
def validatePasswordField (input_element user_id_element : FieldId)
    (error_message : String) (s : EngState) : Bool × EngState :=
  let rules : List Bool :=
    [lengthValid (s.val input_element) (some 8) (some 128) true,
     containsLowerAndUppercase (s.val input_element),
     containsNumber (s.val input_element),
     doesNotContainValue (s.val user_id_element) (s.val input_element) false]
  bindFieldValidationArray input_element rules (ReportArg.str error_message) s

/-- `validatePhoneField(input_element, error_message, error_on_blank)`:
a single `phoneValid` rule bound through `bindValidationError`. -/
def validatePhoneField (input_element : FieldId) (error_message : String)
    (error_on_blank : Bool) (s : EngState) : Bool × EngState :=
  bindValidationError input_element (phoneValid (s.val input_element) error_on_blank)
    error_message s

/-- `validateRequiredField(field, error_message)`. -/
def validateRequiredField (field : FieldId) (error_message : String)
    (s : EngState) : Bool × EngState :=
  bindValidationError field (fieldNotEmpty (s.val field)) error_message s

/-- `handleZipField(field, error_on_blank, required)` from the example
layer: run the zip composite (which itself mutates state), optionally the
required rule, then hand the collected booleans to
`bindFieldValidationArray` with `report_error_message = true`. -/
def handleZipField (field : FieldId) (error_on_blank required : Bool)
    (s : EngState) : Bool × EngState :=
  let r1 := validateZipField field "Incorrect Format" error_on_blank s
  if required = true then
    let r2 := validateRequiredField field "This field is required" r1.2
    bindFieldValidationArray field [r1.1, r2.1] (ReportArg.bool true) r2.2
  else
    bindFieldValidationArray field [r1.1] (ReportArg.bool true) r1.2

/-! ## Concrete example states used by witnesses and counterexamples -/

/-- A two-field form where field `0` carries error state and field `1`
does not, with blank values. -/
def exS : EngState :=
  { scope := [0, 1],
    val := fun _ => "",
    fieldErr := fun f => f == 0,
    labelErr := fun f => f == 0,
    formErr := true,
    msg := fun _ => "",
    log := [] }

/-- A two-field form with no errors at all and blank values. -/
def exSclean : EngState :=
  { scope := [0, 1],
    val := fun _ => "",
    fieldErr := fun _ => false,
    labelErr := fun _ => false,
    formErr := false,
    msg := fun _ => "",
    log := [] }

/-- An error-free form whose field `0` holds `"abc12345"` and field `1`
holds `"abc"`. -/
def exSpw : EngState :=
  { exSclean with val := fun f => if f = 0 then "abc12345" else "abc" }

/-- An error-free form whose field `0` holds `"Abc12345"` and field `1`
holds `"Abc12345xyz"`. -/
def exSpw2 : EngState :=
  { exSclean with val := fun f => if f = 0 then "Abc12345" else "Abc12345xyz" }

/-- An error-free form whose field `0` holds `"111-111-1111"`. -/
def exSphone : EngState :=
  { exSclean with val := fun f => if f = 0 then "111-111-1111" else "" }

/-! ### Evaluator lemmas -/

lemma runRulesetLoop_halt (R : List Bool) (acc : List Bool) :
    runRulesetLoop false true acc false R = .bool (R.all id) := by
  induction R generalizing acc with
  | nil => simp [runRulesetLoop]
  | cons r rest ih =>
    cases r with
    | false => simp [runRulesetLoop]
    | true => simpa [runRulesetLoop] using ih (acc ++ [true])

lemma runRulesetLoop_agg (R : List Bool) (acc : List Bool) (e : Bool) :
    runRulesetLoop false false acc e R = .bool (!e && R.all id) := by
  induction R generalizing acc e with
  | nil => simp [runRulesetLoop]
  | cons r rest ih =>
    cases r with
    | false => simpa [runRulesetLoop] using ih (acc ++ [false]) true
    | true => simpa [runRulesetLoop] using ih (acc ++ [true]) e

lemma runRulesetLoop_raw (R : List Bool) (acc : List Bool) (e : Bool) :
    runRulesetLoop true false acc e R = .arr (acc ++ R) := by
  induction R generalizing acc e with
  | nil => simp [runRulesetLoop]
  | cons r rest ih =>
    simp only [runRulesetLoop]
    rw [if_neg (by simp), if_neg (by simp), ih (acc ++ [r])]
    simp

lemma runValidationRuleset_halt (R : List Bool) :
    runValidationRuleset R false true = .bool (R.all id) :=
  runRulesetLoop_halt R []

lemma runValidationRuleset_agg (R : List Bool) :
    runValidationRuleset R false false = .bool (R.all id) := by
  simpa using runRulesetLoop_agg R [] false

lemma runValidationRuleset_raw (R : List Bool) :
    runValidationRuleset R true false = .arr R := by
  simpa using runRulesetLoop_raw R [] false

/-- A first-false index exists exactly when the conjunction of the list is
false. -/
lemma all_eq_false_iff_first_false (R : List Bool) :
    R.all id = false ↔
      ∃ i, i < R.length ∧ R.getD i false = false ∧ ∀ j, j < i → R.getD j true = true := by
  induction R with
  | nil => simp
  | cons r rest ih =>
    cases r with
    | false =>
      constructor
      · intro _
        exact ⟨0, by simp, by simp, fun j hj => absurd hj (Nat.not_lt_zero j)⟩
      · intro _
        simp
    | true =>
      simp only [List.all_cons, id, Bool.true_and]
      rw [ih]
      constructor
      · rintro ⟨i, hi, hfalse, hbefore⟩
        refine ⟨i + 1, by simpa using hi, by simpa using hfalse, ?_⟩
        intro j hj
        cases j with
        | zero => simp
        | succ k =>
          simpa using hbefore k (Nat.lt_of_succ_lt_succ hj)
      · rintro ⟨i, hi, hfalse, hbefore⟩
        cases i with
        | zero => simp at hfalse
        | succ k =>
          refine ⟨k, by simpa using hi, by simpa using hfalse, ?_⟩
          intro j hj
          simpa using hbefore (j + 1) (Nat.succ_lt_succ hj)


/-! ### Engine lemmas -/

lemma bindArr_str_success (field : FieldId) (rules : List Bool) (m : String)
    (s : EngState) (h : runValidationRuleset rules false true = RunResult.bool true) :
    bindFieldValidationArray field rules (ReportArg.str m) s =
      (true, recoverErrorState field s) := by
  simp [bindFieldValidationArray, h]

lemma bindArr_str_failure (field : FieldId) (rules : List Bool) (m : String)
    (s : EngState) (h : runValidationRuleset rules false true = RunResult.bool false) :
    bindFieldValidationArray field rules (ReportArg.str m) s =
      (false, setErrorState field m s) := by
  simp [bindFieldValidationArray, h]

lemma recoverErrorState_fieldErr (f g : FieldId) (s : EngState) :
    (recoverErrorState f s).fieldErr g = if g = f then false else s.fieldErr g := rfl

lemma recoverErrorState_labelErr (f g : FieldId) (s : EngState) :
    (recoverErrorState f s).labelErr g = if g = f then false else s.labelErr g := rfl

lemma recoverErrorState_log (f : FieldId) (s : EngState) :
    (recoverErrorState f s).log = s.log ++ [Cmd.clearError f, Cmd.queryOther f] := by
  show (s.log ++ [Cmd.clearError f]) ++ [Cmd.queryOther f]
      = s.log ++ [Cmd.clearError f, Cmd.queryOther f]
  simp

/-!
## Claim theorems
-/

/--
C1: for every sequence `R` of booleans, evaluating `R` in short-circuit
mode (`runValidationRuleset` with `return_errors = false` and
`halt_on_error = true`) returns `false` iff there is an index `i` with
`R[i] = false` and every entry before `i` true, returns `true` iff every
entry of `R` is true, and returns `true` on the empty sequence.
-/
theorem C1_runValidationRuleset_shortCircuit (R : List Bool) :
    (runValidationRuleset R false true = RunResult.bool false ↔
      ∃ i, i < R.length ∧ R.getD i false = false ∧
        ∀ j, j < i → R.getD j true = true) ∧
    (runValidationRuleset R false true = RunResult.bool true ↔ ∀ b ∈ R, b = true) ∧
    runValidationRuleset ([] : List Bool) false true = RunResult.bool true := by
  refine ⟨?_, ?_, by simp [runValidationRuleset, runRulesetLoop]⟩
  · rw [runValidationRuleset_halt]
    constructor
    · intro h
      exact (all_eq_false_iff_first_false R).mp (by simpa using h)
    · intro h
      have hall := (all_eq_false_iff_first_false R).mpr h
      simp [hall]
  · rw [runValidationRuleset_halt]
    simp [List.all_eq_true]

/--
C2: for every sequence `R` of booleans, evaluating with short-circuit
disabled in aggregated-boolean mode (`return_errors = false`,
`halt_on_error = false`) yields exactly the conjunction of `R`: the result
is `true` iff every entry of `R` is true.
-/
theorem C2_runValidationRuleset_aggregate (R : List Bool) :
    runValidationRuleset R false false = RunResult.bool (R.all id) ∧
    (runValidationRuleset R false false = RunResult.bool true ↔ ∀ b ∈ R, b = true) := by
  refine ⟨runValidationRuleset_agg R, ?_⟩
  rw [runValidationRuleset_agg]
  simp [List.all_eq_true]

/--
C5: for every sequence `R` of booleans, raw-sequence mode
(`return_errors = true`) with short-circuit not simultaneously enabled
(`halt_on_error = false`) returns the full ordered sequence unmodified,
including the empty sequence for empty `R`.
-/
theorem C5_runValidationRuleset_rawSequence (R : List Bool) :
    runValidationRuleset R true false = RunResult.arr R :=
  runValidationRuleset_raw R

/--
C10: `bindFieldValidationArray` called with `report_error_message` equal to
boolean `true` (the aggregate-messages mode every `handle*` composite of
the example layer uses) returns `false` for every field, rule sequence and
state — even when every rule passes — and leaves the state untouched, so
neither `recoverErrorState` nor `setErrorState` runs; in particular
`handleZipField` always returns `false`.
-/
theorem C10_aggregate_mode_always_false (field : FieldId) (rules : List Bool)
    (s : EngState) :
    bindFieldValidationArray field rules (ReportArg.bool true) s = (false, s) ∧
    ∀ (b r : Bool) (t : EngState), (handleZipField field b r t).1 = false := by
  constructor
  · simp [bindFieldValidationArray]
  · intro b r t
    cases r <;> simp [handleZipField, bindFieldValidationArray]

/--
C3 counterexample: on the single-rule entry point `bindValidationError`, a
`true` evaluator verdict performs no transition at all — with field `0`
already in error state, the call returns `true` yet the field's error
state is still set, and no clear-error command (indeed no command) was
issued and the Scope Error Tracker was never consulted.
-/
theorem C3_counterexample_bindValidationError_no_clear :
    (bindValidationError 0 true "msg" exS).1 = true ∧
    (bindValidationError 0 true "msg" exS).2.fieldErr 0 = true ∧
    (bindValidationError 0 true "msg" exS).2.log = [] :=
  ⟨rfl, rfl, rfl⟩

/--
C3 amended: only the rule-array path clears on success, and only in
single-message mode — whenever every rule passes, `bindFieldValidationArray`
with a string `report_error_message` returns `true`, transitions the
field's error state (and its label's) to cleared, issues the clear-error
command and consults the Scope Error Tracker; the single-rule path
`bindValidationError` performs no clearing on a `true` verdict.
-/
theorem C3_amended_array_path_clears_on_success (field : FieldId)
    (rules : List Bool) (m : String) (s : EngState)
    (h : ∀ b ∈ rules, b = true) :
    (bindFieldValidationArray field rules (ReportArg.str m) s).1 = true ∧
    (bindFieldValidationArray field rules (ReportArg.str m) s).2.fieldErr field = false ∧
    (bindFieldValidationArray field rules (ReportArg.str m) s).2.labelErr field = false ∧
    (bindFieldValidationArray field rules (ReportArg.str m) s).2.log =
      s.log ++ [Cmd.clearError field, Cmd.queryOther field] ∧
    ∀ (g : FieldId) (c : Bool) (m2 : String) (t : EngState),
      (bindValidationError g c m2 t).1 = true → (bindValidationError g c m2 t).2 = t := by
  have hrun : runValidationRuleset rules false true = RunResult.bool true := by
    rw [runValidationRuleset_halt]
    have : rules.all id = true := List.all_eq_true.mpr (by simpa using h)
    rw [this]
  rw [bindArr_str_success field rules m s hrun]
  refine ⟨rfl, ?_, ?_, recoverErrorState_log field s, ?_⟩
  · rw [recoverErrorState_fieldErr]
    simp
  · rw [recoverErrorState_labelErr]
    simp
  · intro g c m2 t hres
    cases c with
    | false => simp [bindValidationError] at hres
    | true => rfl

/-- Witness for the amended C3, at field `0` of the errored example state
with two passing rules. -/
theorem C3_amended_array_path_clears_on_success_witness :
    (bindFieldValidationArray 0 [true, true] (ReportArg.str "msg2") exS).1 = true ∧
    (bindFieldValidationArray 0 [true, true] (ReportArg.str "msg2") exS).2.fieldErr 0 = false ∧
    (bindFieldValidationArray 0 [true, true] (ReportArg.str "msg2") exS).2.labelErr 0 = false ∧
    (bindFieldValidationArray 0 [true, true] (ReportArg.str "msg2") exS).2.log =
      exS.log ++ [Cmd.clearError 0, Cmd.queryOther 0] ∧
    ∀ (g : FieldId) (c : Bool) (m2 : String) (t : EngState),
      (bindValidationError g c m2 t).1 = true → (bindValidationError g c m2 t).2 = t :=
  C3_amended_array_path_clears_on_success 0 [true, true] "msg2" exS (by decide)

/--
C4: for every state and excluded field `f`, if some other field `g` of the
scope carries error state while `f` does not, `otherErrorsExist` reports
`true`; and if no field of the scope other than `f` carries error state it
reports `false` — the excluded field itself is never counted, whatever its
own error state.
-/
theorem C4_otherErrorsExist_correct (s : EngState) (f : FieldId) :
    (∀ g, g ∈ s.scope → f ≠ g → s.fieldErr g = true → s.fieldErr f = false →
      (otherErrorsExist f s).1 = true) ∧
    ((∀ x, x ∈ s.scope → x ≠ f → s.fieldErr x = false) →
      (otherErrorsExist f s).1 = false) := by
  constructor
  · intro g hg hfg herr _
    simp only [otherErrorsExist, decide_eq_true_eq]
    refine List.countP_pos_iff.mpr ⟨g, List.mem_filter.mpr ⟨hg, herr⟩, ?_⟩
    simpa using fun hgf => hfg hgf.symm
  · intro h
    have hz : List.countP (fun value => value != f) (s.scope.filter s.fieldErr) = 0 := by
      refine List.countP_eq_zero.mpr ?_
      intro a ha
      have hmem := List.mem_filter.mp ha
      by_cases haf : a = f
      · simp [haf]
      · rw [h a hmem.1 haf] at hmem
        exact absurd hmem.2 (by simp)
    simp [otherErrorsExist, hz]

/-- Witness for C4: in the example states, field `0` in error makes
`otherErrorsExist` true for field `1`, and an error-free scope makes it
false. -/
theorem C4_otherErrorsExist_correct_witness :
    (otherErrorsExist 1 exS).1 = true ∧ (otherErrorsExist 1 exSclean).1 = false :=
  ⟨(C4_otherErrorsExist_correct exS 1).1 0 (by decide) (by decide) rfl rfl,
   (C4_otherErrorsExist_correct exSclean 1).2 (fun x hx hxf => rfl)⟩

/--
C9: `otherErrorsExist` is a pure query — it returns the state unchanged
for every scope and excluded field, and its boolean result depends only on
the scope inventory and the current field error states.
-/
theorem C9_otherErrorsExist_pure (f : FieldId) (s : EngState) :
    (otherErrorsExist f s).2 = s ∧
    ∀ s' : EngState, s'.scope = s.scope → s'.fieldErr = s.fieldErr →
      (otherErrorsExist f s').1 = (otherErrorsExist f s).1 := by
  refine ⟨rfl, ?_⟩
  intro s' hscope herr
  simp only [otherErrorsExist, hscope, herr]

/-- Witness for C9 at field `0` of the errored example state. -/
theorem C9_otherErrorsExist_pure_witness :
    (otherErrorsExist 0 exS).2 = exS ∧
    (otherErrorsExist 0 exS).1 = (otherErrorsExist 0 exS).1 :=
  ⟨(C9_otherErrorsExist_pure 0 exS).1,
   (C9_otherErrorsExist_pure 0 exS).2 exS rfl rfl⟩

/-! ### Substring lemmas for the containment rule -/

lemma startsWithChars_iff (needle : List Char) : ∀ h : List Char,
    startsWithChars h needle = true ↔ ∃ suf, h = needle ++ suf := by
  induction needle with
  | nil =>
    intro h
    simp [startsWithChars]
  | cons d ds ih =>
    intro h
    cases h with
    | nil => simp [startsWithChars]
    | cons c cs =>
      simp only [startsWithChars, Bool.and_eq_true, beq_iff_eq]
      rw [ih cs]
      constructor
      · rintro ⟨hcd, suf, hsuf⟩
        exact ⟨suf, by simp [hcd, hsuf]⟩
      · rintro ⟨suf, hsuf⟩
        rw [List.cons_append] at hsuf
        injection hsuf with h1 h2
        exact ⟨h1, suf, h2⟩

lemma occursIn_iff (needle : List Char) : ∀ h : List Char,
    occursIn needle h = true ↔ ∃ pre suf, h = pre ++ needle ++ suf := by
  intro h
  induction h with
  | nil =>
    rw [show occursIn needle [] = startsWithChars [] needle from rfl,
      startsWithChars_iff]
    constructor
    · rintro ⟨suf, hs⟩
      exact ⟨[], suf, by simpa using hs⟩
    · rintro ⟨pre, suf, hs⟩
      rw [List.append_assoc] at hs
      have hn : needle = [] := (List.append_eq_nil.mp (List.append_eq_nil.mp hs.symm).2).1
      exact ⟨[], by simp [hn]⟩
  | cons c cs ih =>
    simp only [occursIn, Bool.or_eq_true]
    rw [startsWithChars_iff, ih]
    constructor
    · rintro (⟨suf, hs⟩ | ⟨pre, suf, hs⟩)
      · exact ⟨[], suf, by simpa using hs⟩
      · exact ⟨c :: pre, suf, by simp [hs]⟩
    · rintro ⟨pre, suf, hs⟩
      cases pre with
      | nil => exact Or.inl ⟨suf, by simpa using hs⟩
      | cons p ps =>
        rw [List.cons_append, List.cons_append] at hs
        injection hs with h1 h2
        exact Or.inr ⟨ps, suf, h2⟩

lemma doesNotContainValue_false_iff (user_id pw : String) (hne : user_id ≠ "") :
    doesNotContainValue user_id pw false = false ↔
      ∃ pre suf : List Char, pw.data = pre ++ user_id.data ++ suf := by
  have hlen : user_id.length ≠ 0 := by
    intro h0
    apply hne
    cases user_id with
    | mk d =>
      cases d with
      | nil => rfl
      | cons a as => simp [String.length] at h0
  unfold doesNotContainValue
  rw [if_neg (by simp [hlen])]
  by_cases hocc : occursIn user_id.data pw.data = false
  · rw [if_pos hocc]
    constructor
    · intro h
      exact absurd h (by simp)
    · rintro ⟨pre, suf, hs⟩
      have ht : occursIn user_id.data pw.data = true :=
        (occursIn_iff _ _).mpr ⟨pre, suf, hs⟩
      rw [hocc] at ht
      exact absurd ht (by simp)
  · rw [if_neg hocc]
    have ht : occursIn user_id.data pw.data = true := by
      cases hoc : occursIn user_id.data pw.data
      · exact absurd hoc hocc
      · rfl
    simp only [eq_self_iff_true, true_iff]
    exact (occursIn_iff _ _).mp ht

/--
C6: every format predicate carrying an `error_on_blank`-style flag
(`lengthValid`, `phoneValid`, `emailValid`, `ssnValid`) returns `true` on
the empty string when the flag is `false`, whatever the other constraints;
in particular the zip composite `validateZipField` (which appends no
Required rule) passes on a blank field with `error_on_blank = false` and
issues no set-error command — only the recovery commands.
-/
theorem C6_blank_tolerance :
    (∀ mn mx : Option Nat, lengthValid "" mn mx false = true) ∧
    phoneValid "" false = true ∧
    emailValid "" false = true ∧
    ssnValid "" false = true ∧
    ∀ (f : FieldId) (m : String) (s : EngState), s.val f = "" →
      (validateZipField f m false s).1 = true ∧
      (validateZipField f m false s).2.log =
        s.log ++ [Cmd.clearError f, Cmd.queryOther f] := by
  refine ⟨?_, by decide, by decide, by decide, ?_⟩
  · intro mn mx
    unfold lengthValid
    by_cases hb : mn = none ∧ mx = none
    · rw [if_pos hb]
    · rw [if_neg hb, if_pos (by simp)]
  · intro f m s hval
    have hrun : runValidationRuleset
        [containsOnlyNumeric (s.val f), lengthValid (s.val f) (some 5) (some 5) false]
        false true = RunResult.bool true := by
      rw [hval]
      decide
    dsimp only [validateZipField]
    rw [bindArr_str_success f _ m s hrun]
    exact ⟨rfl, recoverErrorState_log f s⟩

/-- Witness for C6 at field `0` of the clean example state, whose value is
blank. -/
theorem C6_blank_tolerance_witness :
    (validateZipField 0 "zipmsg" false exSclean).1 = true ∧
    (validateZipField 0 "zipmsg" false exSclean).2.log =
      exSclean.log ++ [Cmd.clearError 0, Cmd.queryOther 0] :=
  C6_blank_tolerance.2.2.2.2 0 "zipmsg" exSclean rfl

/--
C7: the password containment rule is directional — for a non-empty
`user_id`, `doesNotContainValue(user_id, password, false)` fails iff the
password contains `user_id` as a substring (never the reverse); and
concretely, `validatePasswordField` fails overall on password
`"abc12345"` with userId `"abc"` and passes overall on password
`"Abc12345"` with userId `"Abc12345xyz"`.
-/
theorem C7_password_containment_directional :
    (∀ user_id pw : String, user_id ≠ "" →
      (doesNotContainValue user_id pw false = false ↔
        ∃ pre suf : List Char, pw.data = pre ++ user_id.data ++ suf)) ∧
    (∀ (f uf : FieldId) (m : String) (s : EngState),
      s.val f = "abc12345" → s.val uf = "abc" →
      (validatePasswordField f uf m s).1 = false) ∧
    (∀ (f uf : FieldId) (m : String) (s : EngState),
      s.val f = "Abc12345" → s.val uf = "Abc12345xyz" →
      (validatePasswordField f uf m s).1 = true) := by
  refine ⟨fun user_id pw hne => doesNotContainValue_false_iff user_id pw hne, ?_, ?_⟩
  · intro f uf m s hf huf
    have hrun : runValidationRuleset
        [lengthValid (s.val f) (some 8) (some 128) true,
         containsLowerAndUppercase (s.val f),
         containsNumber (s.val f),
         doesNotContainValue (s.val uf) (s.val f) false]
        false true = RunResult.bool false := by
      rw [hf, huf]
      decide
    dsimp only [validatePasswordField]
    rw [bindArr_str_failure f _ m s hrun]
  · intro f uf m s hf huf
    have hrun : runValidationRuleset
        [lengthValid (s.val f) (some 8) (some 128) true,
         containsLowerAndUppercase (s.val f),
         containsNumber (s.val f),
         doesNotContainValue (s.val uf) (s.val f) false]
        false true = RunResult.bool true := by
      rw [hf, huf]
      decide
    dsimp only [validatePasswordField]
    rw [bindArr_str_success f _ m s hrun]

/-- Witness for C7: the directional rule at userId `"abc"` against
password `"abc12345"`, and both concrete overall outcomes. -/
theorem C7_password_containment_directional_witness :
    (doesNotContainValue "abc" "abc12345" false = false ↔
      ∃ pre suf : List Char, "abc12345".data = pre ++ "abc".data ++ suf) ∧
    (validatePasswordField 0 1 "pwmsg" exSpw).1 = false ∧
    (validatePasswordField 0 1 "pwmsg" exSpw2).1 = true :=
  ⟨C7_password_containment_directional.1 "abc" "abc12345" (by decide),
   C7_password_containment_directional.2.1 0 1 "pwmsg" exSpw rfl rfl,
   C7_password_containment_directional.2.2 0 1 "pwmsg" exSpw2 rfl rfl⟩

/--
C8: phone validation of `"111-111-1111"` fails: the regex-format rule
passes, yet `phoneValid` is `false` (for either blank policy) because the
all-same-digit rule fails — the conjunction is computed eagerly, so a
passing format rule cannot hide it — and `validatePhoneField` therefore
returns `false`.
-/
theorem C8_phone_all_same_digit_fails :
    phoneRegexTest "111-111-1111" = true ∧
    (∀ b : Bool, phoneValid "111-111-1111" b = false) ∧
    ∀ (f : FieldId) (m : String) (b : Bool) (s : EngState),
      s.val f = "111-111-1111" → (validatePhoneField f m b s).1 = false := by
  refine ⟨by decide, ?_, ?_⟩
  · intro b
    cases b <;> decide
  · intro f m b s hval
    dsimp only [validatePhoneField]
    rw [hval]
    have hpv : phoneValid "111-111-1111" b = false := by cases b <;> decide
    rw [hpv]
    rfl

/-- Witness for C8 at field `0` of the example state holding
`"111-111-1111"`. -/
theorem C8_phone_all_same_digit_fails_witness :
    (validatePhoneField 0 "phmsg" false exSphone).1 = false :=
  C8_phone_all_same_digit_fails.2.2 0 "phmsg" false exSphone rfl
